import Mathlib

/-!
Verification of the EIA voice-platform application (`app.py`) and of the
multi-provider AI completion gateway specified alongside it.

The JSON-file-backed data layer is embedded shallowly: JSON values are an
inductive type, each data file's parsed content is passed explicitly, and
every Python function that reads/writes the files becomes a Lean function
from store to store.  Functions that can raise a Python exception on
ill-shaped data return `Option` (`none` = an exception escapes and the
file on disk is left unmodified).
-/

set_option autoImplicit false
set_option linter.unusedVariables false

namespace VoicePlatform

/-- JSON values, as produced by Python's `json.load`.  Numbers are modelled
as integers; no claim in this development inspects a numeric payload. -/
inductive Json where
  | null
  | bool (b : Bool)
  | num (n : Int)
  | str (s : String)
  | arr (xs : List Json)
  | obj (kvs : List (String × Json))

namespace Json

/-- Python `d.get(k)` on a dict parsed from JSON: first binding wins
(JSON objects parsed by Python have unique keys). -/
def alookup : List (String × Json) → String → Option Json
  | [], _ => none
  | (k', v) :: rest, k => if k' = k then some v else alookup rest k

/-- Python `d[k] = v` on a dict: replace the value if the key is present,
otherwise append the new binding (insertion order is preserved). -/
def oset : List (String × Json) → String → Json → List (String × Json)
  | [], k, v => [(k, v)]
  | (k', v') :: rest, k, v =>
      if k' = k then (k, v) :: rest else (k', v') :: oset rest k v

/-- Python `del d[k]` / dict without the key `k`. -/
def oerase (l : List (String × Json)) (k : String) : List (String × Json) :=
  l.filter (fun p => p.1 ≠ k)

/-- Python `j == s` for a string literal `s`: true exactly when `j` is the
same string (comparing a non-string JSON value with a `str` is `False`). -/
def isStrEq : Json → String → Bool
  | str s, t => s = t
  | _, _ => false

end Json

open Json

/-- The state a single data file on disk can be in, as seen by `load_json`:
missing, unreadable as JSON (empty or corrupt), or parsed to a value. -/
inductive FileState where
  | absent
  | unparsable
  | parsed (j : Json)

/-- The four data files of the application plus any other path a caller
might pass. -/
inductive DataFile where
  | users
  | messages
  | anonNames
  | notifications
  | other (name : String)
  deriving DecidableEq

/-- Default content of the messages file. -/
def defaultMessages : Json := Json.obj [("messages", Json.arr [])]

/-- `load_json` from `app.py`: returns `{"messages": []}` for the messages
file whenever it is missing, unreadable, or parsed to a non-dict; returns
`{}` for the other files when missing or unreadable; otherwise returns the
parsed value unvalidated. -/
def load_json (f : DataFile) (st : FileState) : Json :=
  match st with
  | .parsed j =>
      if f = .messages then
        match j with
        | .obj kvs => Json.obj kvs
        | _ => defaultMessages
      else j
  | .unparsable => if f = .messages then defaultMessages else Json.obj []
  | .absent => if f = .messages then defaultMessages else Json.obj []

/-- True when the JSON value is a dict. -/
def Json.isObj : Json → Bool
  | .obj _ => true
  | _ => false

/-- Python `j["k"]` on a parsed JSON value when `j` is a dict (`none`
models the `KeyError`/`TypeError` paths). -/
def Json.jget : Json → String → Option Json
  | .obj kvs, k => alookup kvs k
  | _, _ => none

/-- Python `info.get(k, default)`: the default applies only when the key
is missing, not when it is present with value `null`. -/
def pygetD (kvs : List (String × Json)) (k : String) (d : Json) : Json :=
  match alookup kvs k with
  | some v => v
  | none => d

/-- Python `info.get(k)`: a missing key yields `None`, which `json.load`
also produces for a JSON `null`, so both are modelled as `Json.null`. -/
def pyget (kvs : List (String × Json)) (k : String) : Json :=
  pygetD kvs k Json.null

/-- Python truthiness of a value parsed from JSON. -/
def pyTruthy : Json → Bool
  | .null => false
  | .bool b => b
  | .num n => n != 0
  | .str s => s ≠ ""
  | .arr xs => !xs.isEmpty
  | .obj kvs => !kvs.isEmpty

/-- Model of Python's `json.dumps` (an executable serializer; the app
never parses this output, it only stores it, so escaping inside string
literals is not modelled). -/
def jdump : Json → String
  | .null => "null"
  | .bool true => "true"
  | .bool false => "false"
  | .num n => toString n
  | .str s => "\"" ++ s ++ "\""
  | .arr xs =>
      "[" ++ String.intercalate ", "
        (xs.attach.map (fun x => jdump x.1)) ++ "]"
  | .obj kvs =>
      "\x7b" ++ String.intercalate ", "
        (kvs.attach.map (fun p => "\"" ++ p.1.1 ++ "\": " ++ jdump p.1.2)) ++ "\x7d"
decreasing_by
  all_goals
    first
    | exact Nat.lt_of_lt_of_le (List.sizeOf_lt_of_mem x.2) (by simp)
    | · have h1 := List.sizeOf_lt_of_mem p.2
        have h2 : sizeOf p.1.2 < sizeOf p.1 := by
          rcases p with ⟨⟨k, v⟩, hp⟩
          simp
        simp at h1 ⊢
        omega

/-!  ### User management (`app.py`): `edit_user`, `delete_user`  -/

/-- A store parsed from one of the JSON data files, already known to be a
dict (Python would have raised on the operations below otherwise). -/
abbrev Store := List (String × Json)

/-- One conditional field update of `edit_user`: Python's
`if new_value: users[username][field] = new_value` — `None` and the empty
string are both falsy and skip the update; a non-dict user record raises
(`none`). -/
def setUserField (users : Store) (username field : String) :
    Option String → Option Store
  | none => some users
  | some s =>
      if s = "" then some users
      else
        match alookup users username with
        | some (Json.obj kvs) =>
            some (oset users username (Json.obj (oset kvs field (Json.str s))))
        | _ => none

/-- `edit_user` from `app.py`: refuses to touch `"superadmin"` or an
unknown username (returns `False` with the store unchanged); otherwise
applies the truthy updates and returns `True`. -/
def edit_user (users : Store) (username : String)
    (new_name new_role : Option String) : Option (Bool × Store) :=
  if (alookup users username).isSome ∧ username ≠ "superadmin" then
    match setUserField users username "name" new_name with
    | none => none
    | some u1 =>
        match setUserField u1 username "role" new_role with
        | none => none
        | some u2 => some (true, u2)
  else some (false, users)

/-- `delete_user` from `app.py`: `"superadmin"` is rejected before the
store is even loaded; otherwise the user's entry is removed and their
anonymous name, if any, is removed too. -/
def delete_user (users anon : Store) (username : String) :
    Bool × Store × Store :=
  if username = "superadmin" then (false, users, anon)
  else
    if (alookup users username).isSome then
      (true, oerase users username,
       if (alookup anon username).isSome then oerase anon username else anon)
    else (false, users, anon)

/-- An admin operation on the users / anonymous-names stores. -/
inductive AdminOp where
  | edit (username : String) (new_name new_role : Option String)
  | del (username : String)

/-- Run one admin operation; when `edit_user` raises (`none`), the
exception escapes before `save_json`, so the stores on disk are
unchanged. -/
def applyAdminOp (st : Store × Store) : AdminOp → Store × Store
  | .edit u nn nr =>
      match edit_user st.1 u nn nr with
      | some (_, users') => (users', st.2)
      | none => st
  | .del u =>
      let r := delete_user st.1 st.2 u
      (r.2.1, r.2.2)

/-- Run a sequence of admin operations. -/
def applyAdminOps (ops : List AdminOp) (st : Store × Store) : Store × Store :=
  ops.foldl applyAdminOp st

/-!  ### Message management (`app.py`): `flag_message`, `add_reaction`  -/

/-- Python `msg["id"] == message_id` for a message record: `True` exactly
when the record is a dict whose `"id"` is the given string (comparing a
non-string id with a string is simply `False`); a record without the
`"id"` key or a non-dict record raises, which the callers below surface
as `none`. -/
def msgMatches (mid : String) : Json → Bool
  | .obj kvs =>
      match alookup kvs "id" with
      | some v => v.isStrEq mid
      | none => false
  | _ => false

/-- A message record shape on which the traversals below cannot raise:
a dict that has an `"id"` key. -/
def msgHasId : Json → Bool
  | .obj kvs => (alookup kvs "id").isSome
  | _ => false

/-- The two in-place updates of `flag_message` on the matched record. -/
def flagSet (kvs : List (String × Json)) (reason : String) :
    List (String × Json) :=
  oset (oset kvs "flagged" (Json.bool true)) "flag_reason" (Json.str reason)

/-- `flag_message`'s update applied to a matched record. -/
def flagUpdate (reason : String) : Json → Json
  | .obj kvs => Json.obj (flagSet kvs reason)
  | m => m

/-- `flag_message` from `app.py`: walk the message list, set
`flagged`/`flag_reason` on the first record whose id matches, save, and
return `True`; return `False` (without saving) when nothing matches. -/
def flag_message : List Json → String → String → Option (Bool × List Json)
  | [], _, _ => some (false, [])
  | m :: rest, mid, reason =>
      match m with
      | .obj kvs =>
          match alookup kvs "id" with
          | some v =>
              if v.isStrEq mid then
                some (true, Json.obj (flagSet kvs reason) :: rest)
              else
                match flag_message rest mid reason with
                | none => none
                | some (b, rest') => some (b, m :: rest')
          | none => none
      | _ => none

/-- The reaction-dict key used by `app.py`.  In the source file both
literals of the default reactions dict are the very same byte string
(`C4 9F C5 B8 E2 80 98`), so that dict literal has a single key. -/
def thumbKey : String := "ğŸ‘"

/-- The default reactions dict `create_message`/`add_reaction` install:
both written keys coincide, so it is a one-entry dict. -/
def defaultReactions : List (String × Json) := [(thumbKey, Json.arr [])]

/-- `add_reaction`'s first normalization: install the default reactions
dict when the record has none. -/
def ensureReactions (kvs : List (String × Json)) : List (String × Json) :=
  match alookup kvs "reactions" with
  | none => oset kvs "reactions" (Json.obj defaultReactions)
  | some _ => kvs

/-- `add_reaction`'s second normalization on the reactions dict: make sure
the (single) default key is present. -/
def ensureThumb (rkvs : List (String × Json)) : List (String × Json) :=
  if (alookup rkvs thumbKey).isSome then rkvs
  else oset rkvs thumbKey (Json.arr [])

/-- Python `xs.remove(user_id)` on a reaction list: drop the first
element equal to the user id. -/
def eraseStrFirst : List Json → String → List Json
  | [], _ => []
  | x :: rest, u => if x.isStrEq u then rest else x :: eraseStrFirst rest u

/-- Python `user_id in xs` on a reaction list. -/
def strMem (xs : List Json) (u : String) : Bool :=
  xs.any (fun x => x.isStrEq u)

/-- The toggle at the heart of `add_reaction`: remove the user if present,
append them otherwise. -/
def toggleList (xs : List Json) (uid : String) : List Json :=
  if strMem xs uid then eraseStrFirst xs uid else xs ++ [Json.str uid]

/-- The matched-record step of `add_reaction`: normalize the reactions
dict, then toggle the user in `reactions[emoji]`; an absent `emoji` key
or a non-list value under it raises (`none`). -/
def reactOnMatch (kvs : List (String × Json)) (uid emoji : String) :
    Option (List (String × Json)) :=
  match alookup (ensureReactions kvs) "reactions" with
  | some (Json.obj rkvs0) =>
      match alookup (ensureThumb rkvs0) emoji with
      | some (Json.arr xs) =>
          some (oset (ensureReactions kvs) "reactions"
            (Json.obj (oset (ensureThumb rkvs0) emoji
              (Json.arr (toggleList xs uid)))))
      | _ => none
  | _ => none

/-- `add_reaction` from `app.py`, restricted to the messages store (the
notification block at its end is wrapped in `try/except pass` and touches
only the notifications and anonymous-names files, never the messages
store or the return value).  Walk to the first record whose id matches,
apply `reactOnMatch` to it, and save; no matching record returns `False`
without saving. -/
def add_reaction : List Json → String → String → String →
    Option (Bool × List Json)
  | [], _, _, _ => some (false, [])
  | m :: rest, mid, uid, emoji =>
      match m with
      | .obj kvs =>
          match alookup kvs "id" with
          | some v =>
              if v.isStrEq mid then
                match reactOnMatch kvs uid emoji with
                | some kvs' => some (true, Json.obj kvs' :: rest)
                | none => none
              else
                match add_reaction rest mid uid emoji with
                | none => none
                | some (b, rest') => some (b, m :: rest')
          | none => none
      | _ => none

/-- The reaction list of the first record matching `mid`, under `emoji`
(the state the claims about `add_reaction` observe). -/
def reactionList (msgs : List Json) (mid emoji : String) :
    Option (List Json) :=
  match msgs.find? (msgMatches mid) with
  | some (.obj kvs) =>
      match alookup kvs "reactions" with
      | some (.obj rkvs) =>
          match alookup rkvs emoji with
          | some (.arr xs) => some xs
          | _ => none
      | _ => none
  | _ => none

/-!  ### SQLite mirroring (`app.py`): `sync_user_to_db`  -/

/-- A row of the SQLite `users` table.  Column values are modelled as the
JSON values Python binds (`Json.null` standing for SQL `NULL`). -/
structure DbUserRow where
  username : String
  password : Json
  role : Json
  name : Json
  profile_photo : Json
  bio : Json
  created_at : Json

/-- The `profile_photo` normalization of `sync_user_to_db`: a dict becomes
its `path` entry when that is truthy, otherwise its `json.dumps`
serialization; anything else is stored as-is. -/
def normalize_profile_photo : Json → Json
  | .obj kvs =>
      match alookup kvs "path" with
      | some p => if pyTruthy p then p else Json.str (jdump (Json.obj kvs))
      | none => Json.str (jdump (Json.obj kvs))
  | v => v

/-- The row `sync_user_to_db` writes for `username` from the users.json
record `kvs` (`nowIso` is `datetime.utcnow().isoformat()`, used only when
the record has no `created_at` key). -/
def syncRow (username nowIso : String) (kvs : List (String × Json)) :
    DbUserRow where
  username := username
  password := pyget kvs "password"
  role := pyget kvs "role"
  name := pyget kvs "name"
  profile_photo := normalize_profile_photo (pyget kvs "profile_photo")
  bio := pyget kvs "bio"
  created_at := pygetD kvs "created_at" (Json.str nowIso)

/-- `sync_user_to_db` from `app.py`: `False` (database untouched) when the
username is not in users.json; otherwise `UPDATE` the existing row or
`INSERT` a new one with the record's fields and return `True`; a non-dict
record raises (`none`). -/
def sync_user_to_db (users : Store) (db : List DbUserRow)
    (username nowIso : String) : Option (Bool × List DbUserRow) :=
  match alookup users username with
  | none => some (false, db)
  | some (Json.obj kvs) =>
      let row := syncRow username nowIso kvs
      if db.any (fun r => r.username = username) then
        some (true, db.map (fun r => if r.username = username then row else r))
      else
        some (true, db ++ [row])
  | some _ => none

/-!  ### Private conversations (`app.py`): `create_or_get_conversation`  -/

/-- A row of the SQLite `conversations` table. -/
structure ConvRow where
  id : String
  user_a : String
  user_b : String
  anon_by_default : Bool
  created_at : String

/-- `_ensure_normalized_conversation` from `app.py`: order the two
usernames so the pair is unique irrespective of argument order. -/
def _ensure_normalized_conversation (a b : String) : String × String :=
  if a ≤ b then (a, b) else (b, a)

/-- `create_or_get_conversation` from `app.py`: normalize the pair, return
the existing row's id and anonymity flag if one matches, otherwise insert
a fresh row (`freshId` models `secrets.token_hex(8)`, `nowIso` the
creation timestamp) and return its id. -/
def create_or_get_conversation (convs : List ConvRow)
    (freshId nowIso : String) (user_a user_b : String)
    (anon_by_default : Bool) : (String × Bool) × List ConvRow :=
  let ua := (_ensure_normalized_conversation user_a user_b).1
  let ub := (_ensure_normalized_conversation user_a user_b).2
  match convs.find? (fun r => r.user_a == ua && r.user_b == ub) with
  | some r => ((r.id, r.anon_by_default), convs)
  | none =>
      ((freshId, anon_by_default),
       convs ++ [⟨freshId, ua, ub, anon_by_default, nowIso⟩])

/-!  ### Backup layer (`app.py`): `save_json`, `_latest_backup_for`,
     `_restore_from_latest_backup`  -/

/-- Whether `save_json` backs this file up (the four-file tuple check). -/
def DataFile.important : DataFile → Bool
  | .users | .messages | .anonNames | .notifications => true
  | .other _ => false

/-- One file in the backup directory: which data file it backs up, its
modification time, and its (JSON round-tripping) content.  The four data
file names are pairwise not prefixes of one another, so the source's
`startswith(filepath.name + '.')`/`endswith('.bak.json')` filter is
exactly a match on the backed-up file. -/
structure Backup where
  file : DataFile
  mtime : Nat
  data : Json

/-- Lookup in the name-indexed store of files on disk. -/
def fsGet : List (DataFile × Json) → DataFile → Option Json
  | [], _ => none
  | (f', v) :: rest, f => if f' = f then some v else fsGet rest f

/-- Write to the name-indexed store of files on disk. -/
def fsSet : List (DataFile × Json) → DataFile → Json → List (DataFile × Json)
  | [], f, v => [(f, v)]
  | (f', v') :: rest, f, v =>
      if f' = f then (f, v) :: rest else (f', v') :: fsSet rest f v

/-- The state `save_json` and the restore helpers act on: the data files,
the backup directory, and a clock whose ticks order modification times. -/
structure FileSys where
  files : List (DataFile × Json)
  backups : List Backup
  clock : Nat

/-- `save_json` from `app.py`: write the file; for the four important
files also write a timestamped backup of the same data. -/
def save_json (fs : FileSys) (f : DataFile) (data : Json) : FileSys :=
  let files' := fsSet fs.files f data
  if f.important then
    { files := files'
      backups := fs.backups ++ [⟨f, fs.clock, data⟩]
      clock := fs.clock + 1 }
  else { files := files', backups := fs.backups, clock := fs.clock }

/-- The source sorts the matching backups by `st_mtime` ascending (a
stable sort) and takes the last, i.e. the last-listed backup of maximal
mtime; this fold keeps exactly that element. -/
def pickLater (acc : Option Backup) (b : Backup) : Option Backup :=
  match acc with
  | none => some b
  | some best => if best.mtime ≤ b.mtime then some b else some best

/-- `_latest_backup_for` from `app.py`. -/
def _latest_backup_for (fs : FileSys) (f : DataFile) : Option Backup :=
  (fs.backups.filter (fun b => b.file == f)).foldl pickLater none

/-- `_restore_from_latest_backup` from `app.py`: rewrite the file with the
content of its latest backup, `False` when it has none. -/
def _restore_from_latest_backup (fs : FileSys) (f : DataFile) :
    Bool × FileSys :=
  match _latest_backup_for fs f with
  | none => (false, fs)
  | some b => (true, { fs with files := fsSet fs.files f b.data })

end VoicePlatform

namespace Gateway

/-- Modelled from the spec: the repository's exam-practice tool and its
`ask_ai` completion gateway are not among the source files, so the gateway
is modelled from the specification's data model (§3): a provider has a
name, a configured flag fixed at startup, and per-call attempt outcomes.
`attempts i` is the outcome of the `i`-th network attempt of this call:
`some text` on success, `none` on any exception. -/
structure Provider where
  name : String
  configured : Bool
  attempts : Nat → Option String

/-- Modelled from the spec: the three provider handles, in the fixed
priority order — vision-capable Provider A, then text-only Providers B
and C. -/
structure GatewayState where
  provA : Provider
  provB : Provider
  provC : Provider

/-- Modelled from the spec: an unconfigured provider is skipped without an
attempt; a configured one is tried up to `budget` times, returning the
first successful attempt's text. -/
def tryProvider (p : Provider) (budget : Nat) : Option String :=
  if p.configured then (List.range budget).findSome? p.attempts else none

/-- Modelled from the spec: the fixed "image analysis requires vision"
failure message. -/
def visionSentinel : String := "image analysis requires vision"

/-- Modelled from the spec: the fixed "all AI services failed" terminal
sentinel. -/
def allFailedSentinel : String := "all AI services failed"

/-- Modelled from the spec (§4.1 state machine): `complete` tries Provider
A for up to `maxRetries` attempts; on success returns its text and name.
If an image is attached and A is exhausted or unconfigured, it returns the
vision sentinel with tag "error" without trying any other provider.
Otherwise B is tried up to `maxRetries` attempts, then C exactly once, and
if all fail the terminal sentinel is returned with tag "error".  The
prompt and temperature are forwarded to the providers unchanged (the
attempt outcomes already account for them). -/
def complete (g : GatewayState) (prompt : String) (temperature : Rat)
    (maxRetries : Nat) (image : Option String) : String × String :=
  match tryProvider g.provA maxRetries with
  | some t => (t, g.provA.name)
  | none =>
    if image.isSome then (visionSentinel, "error")
    else
      match tryProvider g.provB maxRetries with
      | some t => (t, g.provB.name)
      | none =>
        match tryProvider g.provC 1 with
        | some t => (t, g.provC.name)
        | none => (allFailedSentinel, "error")

end Gateway

namespace Gateway

/-- A successful `tryProvider` can only come from a configured provider. -/
theorem tryProvider_configured {p : Provider} {budget : Nat} {t : String}
    (h : tryProvider p budget = some t) : p.configured = true := by
  by_contra hc
  simp [tryProvider, hc] at h

/-- If every attempt within the budget fails, `tryProvider` fails. -/
theorem tryProvider_eq_none_of_all_fail {p : Provider} {budget : Nat}
    (h : ∀ i < budget, p.attempts i = none) :
    tryProvider p budget = none := by
  unfold tryProvider
  split
  · rw [List.findSome?_eq_none_iff]
    intro i hi
    exact h i (List.mem_range.mp hi)
  · rfl

/-- C1: with a non-empty prompt and at least one configured provider, the
gateway returns a pair whose tag is "error" or the name of a configured
provider; it is a total function, so it never raises. -/
theorem complete_tag_is_configured_or_error (g : GatewayState)
    (prompt : String) (temperature : Rat) (maxRetries : Nat)
    (image : Option String) (hprompt : prompt ≠ "")
    (hconf : g.provA.configured = true ∨ g.provB.configured = true ∨
             g.provC.configured = true) :
    (complete g prompt temperature maxRetries image).2 = "error" ∨
    ∃ p, (p = g.provA ∨ p = g.provB ∨ p = g.provC) ∧ p.configured = true ∧
         (complete g prompt temperature maxRetries image).2 = p.name := by
  unfold complete
  cases hA : tryProvider g.provA maxRetries with
  | some t => exact Or.inr ⟨g.provA, Or.inl rfl, tryProvider_configured hA, rfl⟩
  | none =>
    by_cases himg : image.isSome
    · simp [himg]
    · simp only [himg, if_false, Bool.false_eq_true]
      cases hB : tryProvider g.provB maxRetries with
      | some t =>
        exact Or.inr ⟨g.provB, Or.inr (Or.inl rfl), tryProvider_configured hB, rfl⟩
      | none =>
        cases hC : tryProvider g.provC 1 with
        | some t =>
          exact Or.inr ⟨g.provC, Or.inr (Or.inr rfl), tryProvider_configured hC, rfl⟩
        | none => exact Or.inl rfl

/-- C1 witness: a single configured provider that succeeds immediately. -/
theorem complete_tag_is_configured_or_error_witness :
    ("ask" ≠ "" ∧
     ((GatewayState.mk ⟨"A", true, fun _ => some "ok"⟩
        ⟨"B", false, fun _ => none⟩ ⟨"C", false, fun _ => none⟩).provA.configured = true ∨
      (GatewayState.mk ⟨"A", true, fun _ => some "ok"⟩
        ⟨"B", false, fun _ => none⟩ ⟨"C", false, fun _ => none⟩).provB.configured = true ∨
      (GatewayState.mk ⟨"A", true, fun _ => some "ok"⟩
        ⟨"B", false, fun _ => none⟩ ⟨"C", false, fun _ => none⟩).provC.configured = true)) ∧
    ((complete (GatewayState.mk ⟨"A", true, fun _ => some "ok"⟩
        ⟨"B", false, fun _ => none⟩ ⟨"C", false, fun _ => none⟩)
        "ask" 1 2 none).2 = "error" ∨
     ∃ p, (p = (GatewayState.mk ⟨"A", true, fun _ => some "ok"⟩
        ⟨"B", false, fun _ => none⟩ ⟨"C", false, fun _ => none⟩).provA ∨
           p = (GatewayState.mk ⟨"A", true, fun _ => some "ok"⟩
        ⟨"B", false, fun _ => none⟩ ⟨"C", false, fun _ => none⟩).provB ∨
           p = (GatewayState.mk ⟨"A", true, fun _ => some "ok"⟩
        ⟨"B", false, fun _ => none⟩ ⟨"C", false, fun _ => none⟩).provC) ∧
          p.configured = true ∧
          (complete (GatewayState.mk ⟨"A", true, fun _ => some "ok"⟩
        ⟨"B", false, fun _ => none⟩ ⟨"C", false, fun _ => none⟩)
        "ask" 1 2 none).2 = p.name) :=
  ⟨⟨by decide, Or.inl rfl⟩,
   complete_tag_is_configured_or_error _ "ask" 1 2 none (by decide) (Or.inl rfl)⟩

/-- C2: with an image attached, if Provider A is unconfigured or every one
of its attempts within the budget fails, the gateway returns the fixed
vision sentinel with tag "error", whatever Providers B and C look like. -/
theorem complete_image_short_circuit (g : GatewayState) (prompt : String)
    (temperature : Rat) (maxRetries : Nat) (image : Option String)
    (himg : image.isSome = true)
    (hA : g.provA.configured = false ∨
          ∀ i < maxRetries, g.provA.attempts i = none) :
    complete g prompt temperature maxRetries image =
      (visionSentinel, "error") := by
  have hnone : tryProvider g.provA maxRetries = none := by
    rcases hA with hA | hA
    · simp [tryProvider, hA]
    · exact tryProvider_eq_none_of_all_fail hA
  unfold complete
  rw [hnone]
  simp [himg]

/-- C2 witness: image attached, Provider A unconfigured, B and C both
configured and succeeding — B and C are still never consulted. -/
theorem complete_image_short_circuit_witness :
    ((some "img" : Option String).isSome = true ∧
     ((GatewayState.mk ⟨"A", false, fun _ => none⟩
        ⟨"B", true, fun _ => some "b"⟩ ⟨"C", true, fun _ => some "c"⟩).provA.configured = false ∨
      ∀ i < 2, (GatewayState.mk ⟨"A", false, fun _ => none⟩
        ⟨"B", true, fun _ => some "b"⟩ ⟨"C", true, fun _ => some "c"⟩).provA.attempts i = none)) ∧
    complete (GatewayState.mk ⟨"A", false, fun _ => none⟩
        ⟨"B", true, fun _ => some "b"⟩ ⟨"C", true, fun _ => some "c"⟩)
      "describe" 1 2 (some "img") = (visionSentinel, "error") :=
  ⟨⟨rfl, Or.inl rfl⟩,
   complete_image_short_circuit _ "describe" 1 2 (some "img") rfl (Or.inl rfl)⟩

/-- C3: with no image, all three providers configured, A and B failing on
every attempt within the budget and C failing its single attempt, the
gateway returns the terminal sentinel with tag "error". -/
theorem complete_all_providers_fail (g : GatewayState) (prompt : String)
    (temperature : Rat) (maxRetries : Nat)
    (hcA : g.provA.configured = true) (hcB : g.provB.configured = true)
    (hcC : g.provC.configured = true)
    (hA : ∀ i < maxRetries, g.provA.attempts i = none)
    (hB : ∀ i < maxRetries, g.provB.attempts i = none)
    (hC : g.provC.attempts 0 = none) :
    complete g prompt temperature maxRetries none =
      (allFailedSentinel, "error") := by
  have hAn := tryProvider_eq_none_of_all_fail hA
  have hBn := tryProvider_eq_none_of_all_fail hB
  have hCn : tryProvider g.provC 1 = none :=
    tryProvider_eq_none_of_all_fail (by
      intro i hi
      interval_cases i
      exact hC)
  unfold complete
  rw [hAn, hBn, hCn]
  rfl

/-- C3 witness: all three providers configured and always failing. -/
theorem complete_all_providers_fail_witness :
    ((GatewayState.mk ⟨"A", true, fun _ => none⟩
        ⟨"B", true, fun _ => none⟩ ⟨"C", true, fun _ => none⟩).provA.configured = true ∧
     (∀ i < 2, (GatewayState.mk ⟨"A", true, fun _ => none⟩
        ⟨"B", true, fun _ => none⟩ ⟨"C", true, fun _ => none⟩).provA.attempts i = none) ∧
     (GatewayState.mk ⟨"A", true, fun _ => none⟩
        ⟨"B", true, fun _ => none⟩ ⟨"C", true, fun _ => none⟩).provC.attempts 0 = none) ∧
    complete (GatewayState.mk ⟨"A", true, fun _ => none⟩
        ⟨"B", true, fun _ => none⟩ ⟨"C", true, fun _ => none⟩)
      "ask" 1 2 none = (allFailedSentinel, "error") :=
  ⟨⟨rfl, fun i hi => rfl, rfl⟩,
   complete_all_providers_fail _ "ask" 1 2 rfl rfl rfl
     (fun i hi => rfl) (fun i hi => rfl) rfl⟩

end Gateway

namespace VoicePlatform

/-- C8: whatever state the messages file is in, `load_json(MESSAGES_FILE)`
returns a dict; in the absent / unreadable / parsed-non-dict states it is
exactly `{"messages": []}`, so indexing the result with `"messages"` yields
a list. -/
theorem load_json_messages_total_and_default (st : FileState)
    (h : st = .absent ∨ st = .unparsable ∨
         ∃ j, st = .parsed j ∧ j.isObj = false) :
    (load_json .messages st).isObj = true ∧
    load_json .messages st = defaultMessages ∧
    (load_json .messages st).jget "messages" = some (Json.arr []) := by
  have hd : load_json .messages st = defaultMessages := by
    rcases h with h | h | ⟨j, hj, hobj⟩ <;> subst_vars <;>
      first
      | rfl
      | (cases j <;> simp_all [load_json, defaultMessages, Json.isObj])
  rw [hd]
  exact ⟨rfl, rfl, rfl⟩

/-- C8 witness: the parsed-non-dict state, at a concrete array value. -/
theorem load_json_messages_total_and_default_witness :
    (FileState.parsed (Json.arr []) = FileState.absent ∨
     FileState.parsed (Json.arr []) = FileState.unparsable ∨
     ∃ j, FileState.parsed (Json.arr []) = FileState.parsed j ∧
          j.isObj = false) ∧
    (load_json .messages (.parsed (Json.arr []))).isObj = true ∧
    load_json .messages (.parsed (Json.arr [])) = defaultMessages ∧
    (load_json .messages (.parsed (Json.arr []))).jget "messages" =
      some (Json.arr []) :=
  ⟨Or.inr (Or.inr ⟨Json.arr [], rfl, rfl⟩),
   load_json_messages_total_and_default (.parsed (Json.arr []))
     (Or.inr (Or.inr ⟨Json.arr [], rfl, rfl⟩))⟩

end VoicePlatform

namespace VoicePlatform

open Json

/-!  ## Association-list lemmas shared by the store proofs  -/

theorem alookup_oset_self (l : List (String × Json)) (k : String) (v : Json) :
    alookup (oset l k v) k = some v := by
  induction l with
  | nil => simp [oset, alookup]
  | cons p rest ih =>
      obtain ⟨k', v'⟩ := p
      by_cases h : k' = k <;> simp [oset, alookup, h, ih]

theorem alookup_oset_ne (l : List (String × Json)) {k k' : String} (v : Json)
    (h : k' ≠ k) : alookup (oset l k v) k' = alookup l k' := by
  induction l with
  | nil => simp [oset, alookup, Ne.symm h]
  | cons p rest ih =>
      obtain ⟨k'', v''⟩ := p
      by_cases hk : k'' = k
      · subst hk
        simp [oset, alookup, Ne.symm h]
      · by_cases hk' : k'' = k' <;> simp [oset, alookup, hk, hk', ih, h]

theorem alookup_oerase_ne (l : List (String × Json)) {k k' : String}
    (h : k' ≠ k) : alookup (oerase l k) k' = alookup l k' := by
  induction l with
  | nil => simp [oerase, alookup]
  | cons p rest ih =>
      obtain ⟨k'', v''⟩ := p
      by_cases hk : k'' = k <;> by_cases hk' : k'' = k' <;>
        simp_all [oerase, alookup, List.filter_cons, Ne.symm h]

/-- A `setUserField` step never disturbs another user's entry. -/
theorem setUserField_lookup_ne {users us' : Store} {username field k : String}
    (hne : k ≠ username) :
    ∀ {v : Option String}, setUserField users username field v = some us' →
      alookup us' k = alookup users k := by
  intro v hv
  match v with
  | none => simp [setUserField] at hv; subst hv; rfl
  | some s =>
      by_cases hs : s = ""
      · simp [setUserField, hs] at hv
        subst hv; rfl
      · simp only [setUserField, hs, if_false] at hv
        match hinfo : alookup users username with
        | some (Json.obj kvs) =>
            rw [hinfo] at hv
            simp at hv
            subst hv
            exact alookup_oset_ne _ _ hne
        | some (Json.null) | some (Json.bool _) | some (Json.num _)
        | some (Json.str _) | some (Json.arr _) =>
            rw [hinfo] at hv
            simp at hv
        | none => rw [hinfo] at hv; simp at hv

/-- `edit_user` on any username other than the target key never disturbs
that key's entry. -/
theorem edit_user_lookup_ne {users us' : Store} {u k : String}
    {nn nr : Option String} {b : Bool} (hne : k ≠ u)
    (h : edit_user users u nn nr = some (b, us')) :
    alookup us' k = alookup users k := by
  unfold edit_user at h
  split at h
  · match h1 : setUserField users u "name" nn with
    | none => rw [h1] at h; simp at h
    | some u1 =>
        rw [h1] at h
        dsimp only at h
        match h2 : setUserField u1 u "role" nr with
        | none => rw [h2] at h; simp at h
        | some u2 =>
            rw [h2] at h
            simp at h
            rw [← h.2, setUserField_lookup_ne hne h2,
                setUserField_lookup_ne hne h1]
  · simp at h
    rw [← h.2]

/-- The superadmin entry survives one admin operation. -/
theorem applyAdminOp_superadmin (st : Store × Store) (op : AdminOp)
    (h : (alookup st.1 "superadmin").isSome = true) :
    (alookup (applyAdminOp st op).1 "superadmin").isSome = true := by
  match op with
  | .edit u nn nr =>
      show (alookup
        (match edit_user st.1 u nn nr with
         | some (_, users') => (users', st.2)
         | none => st).1 "superadmin").isSome = true
      match he : edit_user st.1 u nn nr with
      | none => simpa using h
      | some (b, users') =>
          by_cases hu : u = "superadmin"
          · subst hu
            unfold edit_user at he
            simp at he
            simp [← he.2, h]
          · simp [edit_user_lookup_ne (fun hh => hu hh.symm) he, h]
  | .del u =>
      show (alookup (delete_user st.1 st.2 u).2.1 "superadmin").isSome = true
      unfold delete_user
      by_cases hu : u = "superadmin"
      · simpa [hu] using h
      · split
        · simpa using h
        · split
          · simpa [alookup_oerase_ne _ (fun hh => hu hh.symm)] using h
          · simpa using h

/-- C9: the built-in superadmin account is indelible and immutable —
`edit_user` and `delete_user` on `"superadmin"` return `False` and leave
the stores unchanged whatever their state, and a users store containing
the superadmin entry keeps it under every sequence of admin operations. -/
theorem superadmin_indelible (ops : List AdminOp) (users anon : Store)
    (h : (alookup users "superadmin").isSome = true) :
    (∀ (us an : Store) (nn nr : Option String),
        edit_user us "superadmin" nn nr = some (false, us) ∧
        delete_user us an "superadmin" = (false, us, an)) ∧
    (alookup (applyAdminOps ops (users, anon)).1 "superadmin").isSome = true := by
  constructor
  · intro us an nn nr
    exact ⟨by simp [edit_user], by simp [delete_user]⟩
  · rw [applyAdminOps]
    induction ops generalizing users anon with
    | nil => simpa using h
    | cons op rest ih =>
        rw [List.foldl_cons]
        have h1 := applyAdminOp_superadmin (users, anon) op h
        exact ih (applyAdminOp (users, anon) op).1
          (applyAdminOp (users, anon) op).2 h1

/-- C9 witness: a two-user store; an edit of the other user and a failed
delete of the superadmin both keep the superadmin entry. -/
theorem superadmin_indelible_witness :
    (alookup [("superadmin", Json.obj [("role", Json.str "super_admin")]),
              ("bob", Json.obj [("role", Json.str "student")])]
       "superadmin").isSome = true ∧
    ((∀ (us an : Store) (nn nr : Option String),
        edit_user us "superadmin" nn nr = some (false, us) ∧
        delete_user us an "superadmin" = (false, us, an)) ∧
     (alookup (applyAdminOps
         [AdminOp.edit "bob" (some "Bobby") none, AdminOp.del "bob",
          AdminOp.del "superadmin"]
         ([("superadmin", Json.obj [("role", Json.str "super_admin")]),
           ("bob", Json.obj [("role", Json.str "student")])], [])).1
       "superadmin").isSome = true) :=
  ⟨rfl, superadmin_indelible _ _ _ rfl⟩

/-!  ## C6: `flag_message`  -/

/-- The matched-record update of `flag_message` sets the two flag fields
and nothing else. -/
theorem flagSet_fields (kvs : List (String × Json)) (reason : String) :
    alookup (flagSet kvs reason) "flagged" = some (Json.bool true) ∧
    alookup (flagSet kvs reason) "flag_reason" = some (Json.str reason) ∧
    ∀ k, k ≠ "flagged" → k ≠ "flag_reason" →
      alookup (flagSet kvs reason) k = alookup kvs k := by
  refine ⟨?_, alookup_oset_self _ _ _, ?_⟩
  · rw [flagSet, alookup_oset_ne _ _ (by decide), alookup_oset_self]
  · intro k h1 h2
    rw [flagSet, alookup_oset_ne _ _ h2, alookup_oset_ne _ _ h1]

/-- Mapping the per-record update over records none of which match is the
identity. -/
theorem map_flagUpdate_of_no_match {mid reason : String} {rest : List Json}
    (h : ∀ x ∈ rest, msgMatches mid x = false) :
    List.map (fun m => if msgMatches mid m = true then flagUpdate reason m
                       else m) rest = rest := by
  induction rest with
  | nil => rfl
  | cons a l ih =>
      have h1 := h a (List.mem_cons_self a l)
      simp only [List.map_cons, h1, Bool.false_eq_true, if_false]
      rw [ih (fun x hx => h x (List.mem_cons_of_mem _ hx))]

/-- C6: on a store of id-bearing records in which at most one record
matches, `flag_message` returns `True` exactly when some record matches,
rewrites the store with only the matching record updated — its `flagged`
set, its `flag_reason` set to the reason, every other field untouched —
and returns `False` with the store unchanged when nothing matches. -/
theorem flag_message_spec (msgs : List Json) (mid reason : String)
    (hwf : msgs.all msgHasId = true)
    (huniq : msgs.countP (msgMatches mid) ≤ 1) :
    flag_message msgs mid reason =
      some (msgs.any (msgMatches mid),
            msgs.map (fun m => if msgMatches mid m then flagUpdate reason m
                               else m)) ∧
    (msgs.any (msgMatches mid) = false →
      msgs.map (fun m => if msgMatches mid m then flagUpdate reason m else m)
        = msgs) ∧
    (∀ kvs : List (String × Json),
      alookup (flagSet kvs reason) "flagged" = some (Json.bool true) ∧
      alookup (flagSet kvs reason) "flag_reason" = some (Json.str reason) ∧
      ∀ k, k ≠ "flagged" → k ≠ "flag_reason" →
        alookup (flagSet kvs reason) k = alookup kvs k) := by
  refine ⟨?_, ?_, fun kvs => flagSet_fields kvs reason⟩
  · induction msgs with
    | nil => simp [flag_message]
    | cons m rest ih =>
        rw [List.all_cons, Bool.and_eq_true] at hwf
        obtain ⟨hm, hrest⟩ := hwf
        match m with
        | .obj kvs =>
            rw [msgHasId, Option.isSome_iff_exists] at hm
            obtain ⟨v, hv⟩ := hm
            by_cases hmatch : v.isStrEq mid = true
            · have hmm : msgMatches mid (Json.obj kvs) = true := by
                rw [msgMatches, hv]
                exact hmatch
              have hz : rest.countP (msgMatches mid) = 0 := by
                rw [List.countP_cons, hmm] at huniq
                have h2 : rest.countP (msgMatches mid) + 1 ≤ 1 := by
                  simpa using huniq
                omega
              have hnone : ∀ x ∈ rest, msgMatches mid x = false := by
                intro x hx
                have := List.countP_eq_zero.mp hz x hx
                simpa using this
              rw [flag_message, hv]
              simp only [hmatch, if_true]
              rw [List.any_cons, hmm, Bool.true_or, List.map_cons]
              simp only [hmm, if_true]
              rw [map_flagUpdate_of_no_match hnone]
              rfl
            · have hmm : msgMatches mid (Json.obj kvs) = false := by
                rw [msgMatches, hv]
                simpa using hmatch
              have huniq' : rest.countP (msgMatches mid) ≤ 1 := by
                rw [List.countP_cons, hmm] at huniq
                have h2 : rest.countP (msgMatches mid) + 0 ≤ 1 := by
                  simpa using huniq
                omega
              have ihr := ih hrest huniq'
              rw [flag_message, hv]
              simp only [hmatch, if_false]
              rw [ihr]
              rw [List.any_cons, hmm, Bool.false_or, List.map_cons]
              simp only [hmm, Bool.false_eq_true, if_false]
        | .null | .bool _ | .num _ | .str _ | .arr _ => simp [msgHasId] at hm
  · intro hnone
    rw [List.any_eq_false] at hnone
    exact map_flagUpdate_of_no_match
      (fun x hx => eq_false_of_ne_true (hnone x hx))

/-- C6 witness: a two-message store, flagging the first message. -/
theorem flag_message_spec_witness :
    ([Json.obj [("id", Json.str "m1"), ("flagged", Json.bool false),
                ("flag_reason", Json.str ""), ("content", Json.str "hi")],
      Json.obj [("id", Json.str "m2")]].all msgHasId = true ∧
     [Json.obj [("id", Json.str "m1"), ("flagged", Json.bool false),
                ("flag_reason", Json.str ""), ("content", Json.str "hi")],
      Json.obj [("id", Json.str "m2")]].countP (msgMatches "m1") ≤ 1) ∧
    flag_message
      [Json.obj [("id", Json.str "m1"), ("flagged", Json.bool false),
                 ("flag_reason", Json.str ""), ("content", Json.str "hi")],
       Json.obj [("id", Json.str "m2")]] "m1" "abuse" =
      some ([Json.obj [("id", Json.str "m1"), ("flagged", Json.bool false),
                       ("flag_reason", Json.str ""),
                       ("content", Json.str "hi")],
             Json.obj [("id", Json.str "m2")]].any (msgMatches "m1"),
            [Json.obj [("id", Json.str "m1"), ("flagged", Json.bool false),
                       ("flag_reason", Json.str ""),
                       ("content", Json.str "hi")],
             Json.obj [("id", Json.str "m2")]].map
              (fun m => if msgMatches "m1" m then flagUpdate "abuse" m
                        else m)) :=
  ⟨⟨rfl, by decide⟩,
   (flag_message_spec
      [Json.obj [("id", Json.str "m1"), ("flagged", Json.bool false),
                 ("flag_reason", Json.str ""), ("content", Json.str "hi")],
       Json.obj [("id", Json.str "m2")]] "m1" "abuse" rfl (by decide)).1⟩

/-!  ## C5: `sync_user_to_db`  -/

/-- The row `SELECT`ed for a username: the first matching one. -/
def dbFind (db : List DbUserRow) (username : String) : Option DbUserRow :=
  db.find? (fun r => r.username == username)

/-- After the `UPDATE` branch, the selected row is the freshly written
one. -/
theorem dbFind_map_update {db : List DbUserRow} {username : String}
    {row : DbUserRow} (hrow : row.username = username)
    (hany : db.any (fun r => r.username = username) = true) :
    dbFind (db.map (fun r => if r.username = username then row else r))
      username = some row := by
  rw [dbFind]
  induction db with
  | nil => simp at hany
  | cons r rest ih =>
      rw [List.any_cons, Bool.or_eq_true] at hany
      by_cases hr : r.username = username
      · rw [List.map_cons, if_pos hr,
          List.find?_cons_of_pos _ (by simp [hrow])]
      · have hrest : rest.any (fun r => r.username = username) = true := by
          rcases hany with h | h
          · simp [hr] at h
          · exact h
        rw [List.map_cons, if_neg hr,
          List.find?_cons_of_neg _ (by simp [hr])]
        exact ih hrest

/-- After the `INSERT` branch, the selected row is the appended one. -/
theorem dbFind_append_new {db : List DbUserRow} {username : String}
    {row : DbUserRow} (hrow : row.username = username)
    (hnone : db.any (fun r => r.username = username) = false) :
    dbFind (db ++ [row]) username = some row := by
  rw [dbFind]
  induction db with
  | nil => simp [List.find?, hrow]
  | cons r rest ih =>
      rw [List.any_cons, Bool.or_eq_false_iff] at hnone
      obtain ⟨h1, h2⟩ := hnone
      have hr : ¬r.username = username := by simpa using h1
      rw [List.cons_append, List.find?_cons_of_neg _ (by simp [hr])]
      exact ih h2

/-- C5: after `sync_user_to_db` returns `True` for a username present in
users.json, the selected SQLite row is exactly the row written from the
JSON record, whose password, role and name are the record's fields; for
an absent username it returns `False` and leaves the table unchanged. -/
theorem sync_user_to_db_spec (users : Store) (db : List DbUserRow)
    (username nowIso : String) :
    (∀ kvs, alookup users username = some (Json.obj kvs) →
      ∃ db', sync_user_to_db users db username nowIso = some (true, db') ∧
        dbFind db' username = some (syncRow username nowIso kvs) ∧
        (syncRow username nowIso kvs).password = pyget kvs "password" ∧
        (syncRow username nowIso kvs).role = pyget kvs "role" ∧
        (syncRow username nowIso kvs).name = pyget kvs "name") ∧
    (alookup users username = none →
      sync_user_to_db users db username nowIso = some (false, db)) := by
  constructor
  · intro kvs hkvs
    rw [sync_user_to_db, hkvs]
    by_cases hany : db.any (fun r => r.username = username) = true
    · exact ⟨db.map (fun r => if r.username = username
                              then syncRow username nowIso kvs else r),
        by simp only [hany, if_true],
        dbFind_map_update
          (rfl : (syncRow username nowIso kvs).username = username) hany,
        rfl, rfl, rfl⟩
    · rw [Bool.not_eq_true] at hany
      exact ⟨db ++ [syncRow username nowIso kvs],
        by simp only [hany, Bool.false_eq_true, if_false],
        dbFind_append_new
          (rfl : (syncRow username nowIso kvs).username = username) hany,
        rfl, rfl, rfl⟩
  · intro hnone
    rw [sync_user_to_db, hnone]

/-- C5 witness: syncing a fresh user into an empty table. -/
theorem sync_user_to_db_spec_witness :
    (alookup [("alice", Json.obj [("password", Json.str "h"),
                                  ("role", Json.str "student"),
                                  ("name", Json.str "Alice")])] "alice" =
       some (Json.obj [("password", Json.str "h"),
                       ("role", Json.str "student"),
                       ("name", Json.str "Alice")])) ∧
    (∃ db', sync_user_to_db
        [("alice", Json.obj [("password", Json.str "h"),
                             ("role", Json.str "student"),
                             ("name", Json.str "Alice")])]
        [] "alice" "t0" = some (true, db') ∧
      dbFind db' "alice" = some (syncRow "alice" "t0"
        [("password", Json.str "h"), ("role", Json.str "student"),
         ("name", Json.str "Alice")]) ∧
      (syncRow "alice" "t0"
        [("password", Json.str "h"), ("role", Json.str "student"),
         ("name", Json.str "Alice")]).password =
        pyget [("password", Json.str "h"), ("role", Json.str "student"),
               ("name", Json.str "Alice")] "password" ∧
      (syncRow "alice" "t0"
        [("password", Json.str "h"), ("role", Json.str "student"),
         ("name", Json.str "Alice")]).role =
        pyget [("password", Json.str "h"), ("role", Json.str "student"),
               ("name", Json.str "Alice")] "role" ∧
      (syncRow "alice" "t0"
        [("password", Json.str "h"), ("role", Json.str "student"),
         ("name", Json.str "Alice")]).name =
        pyget [("password", Json.str "h"), ("role", Json.str "student"),
               ("name", Json.str "Alice")] "name") :=
  ⟨rfl,
   (sync_user_to_db_spec
      [("alice", Json.obj [("password", Json.str "h"),
                           ("role", Json.str "student"),
                           ("name", Json.str "Alice")])]
      [] "alice" "t0").1
     [("password", Json.str "h"), ("role", Json.str "student"),
      ("name", Json.str "Alice")] rfl⟩

end VoicePlatform

namespace VoicePlatform

/-!  ## C7: `create_or_get_conversation`  -/

/-- Normalization is symmetric in its two usernames. -/
theorem normalized_comm (a b : String) :
    _ensure_normalized_conversation a b = _ensure_normalized_conversation b a := by
  unfold _ensure_normalized_conversation
  rcases le_total a b with h | h
  · by_cases h2 : b ≤ a
    · have hab : a = b := le_antisymm h h2
      subst hab; rfl
    · rw [if_pos h, if_neg h2]
  · by_cases h2 : a ≤ b
    · have hab : a = b := le_antisymm h2 h
      subst hab; rfl
    · rw [if_neg h2, if_pos h]

/-- C7: the conversation for a pair of distinct users is independent of
argument order, and a second call for the same pair returns the id the
first call produced and does not grow the table. -/
theorem create_or_get_conversation_spec (convs : List ConvRow)
    (fid1 fid2 now1 now2 a b : String) (d1 d2 : Bool) (hab : a ≠ b) :
    create_or_get_conversation convs fid1 now1 a b d1 =
      create_or_get_conversation convs fid1 now1 b a d1 ∧
    (create_or_get_conversation
        (create_or_get_conversation convs fid1 now1 a b d1).2
        fid2 now2 a b d2).1.1 =
      (create_or_get_conversation convs fid1 now1 a b d1).1.1 ∧
    (create_or_get_conversation
        (create_or_get_conversation convs fid1 now1 a b d1).2
        fid2 now2 a b d2).2 =
      (create_or_get_conversation convs fid1 now1 a b d1).2 := by
  refine ⟨?_, ?_⟩
  · unfold create_or_get_conversation
    rw [normalized_comm a b]
  · unfold create_or_get_conversation
    match hfind : convs.find? (fun r =>
        r.user_a == (_ensure_normalized_conversation a b).1 &&
        r.user_b == (_ensure_normalized_conversation a b).2) with
    | some r => simp [hfind]
    | none =>
        simp only [hfind]
        rw [List.find?_append, hfind]
        simp [List.find?]

/-- C7 witness: the two orders of a fresh pair coincide, and the repeat
call returns the created conversation without inserting a second row. -/
theorem create_or_get_conversation_spec_witness :
    ("bob" ≠ "alice") ∧
    (create_or_get_conversation [] "c1" "t1" "bob" "alice" true =
       create_or_get_conversation [] "c1" "t1" "alice" "bob" true ∧
     (create_or_get_conversation
         (create_or_get_conversation [] "c1" "t1" "bob" "alice" true).2
         "c2" "t2" "bob" "alice" false).1.1 =
       (create_or_get_conversation [] "c1" "t1" "bob" "alice" true).1.1 ∧
     (create_or_get_conversation
         (create_or_get_conversation [] "c1" "t1" "bob" "alice" true).2
         "c2" "t2" "bob" "alice" false).2 =
       (create_or_get_conversation [] "c1" "t1" "bob" "alice" true).2) :=
  ⟨by decide,
   create_or_get_conversation_spec [] "c1" "c2" "t1" "t2" "bob" "alice"
     true false (by decide)⟩

end VoicePlatform

namespace VoicePlatform

/-!  ## C4: `save_json` / `_restore_from_latest_backup`  -/

theorem fsGet_fsSet_self (l : List (DataFile × Json)) (f : DataFile)
    (v : Json) : fsGet (fsSet l f v) f = some v := by
  induction l with
  | nil => simp [fsSet, fsGet]
  | cons p rest ih =>
      obtain ⟨f', v'⟩ := p
      by_cases h : f' = f <;> simp [fsSet, fsGet, h, ih]

/-- Folding `pickLater` over backups strictly older than `t` yields
nothing or a backup strictly older than `t`. -/
theorem foldl_pickLater_bounded {t : Nat} :
    ∀ (l : List Backup) (acc : Option Backup),
      (∀ b ∈ l, b.mtime < t) →
      (acc = none ∨ ∃ bb, acc = some bb ∧ bb.mtime < t) →
      (l.foldl pickLater acc = none ∨
       ∃ bb, l.foldl pickLater acc = some bb ∧ bb.mtime < t) := by
  intro l
  induction l with
  | nil => intro acc _ hacc; simpa using hacc
  | cons x rest ih =>
      intro acc hl hacc
      rw [List.foldl_cons]
      have hx : x.mtime < t := hl x (List.mem_cons_self x rest)
      have hrest : ∀ b ∈ rest, b.mtime < t :=
        fun b hb => hl b (List.mem_cons_of_mem _ hb)
      refine ih (pickLater acc x) hrest ?_
      rcases hacc with h | ⟨bb, hb, hlt⟩
      · subst h
        exact Or.inr ⟨x, rfl, hx⟩
      · subst hb
        rw [pickLater]
        by_cases hle : bb.mtime ≤ x.mtime
        · rw [if_pos hle]
          exact Or.inr ⟨x, rfl, hx⟩
        · rw [if_neg hle]
          exact Or.inr ⟨bb, rfl, hlt⟩

/-- Appending a backup at least as new as all others makes it the one the
restore helper picks. -/
theorem foldl_pickLater_append_last {l : List Backup} {x : Backup} {t : Nat}
    (hl : ∀ b ∈ l, b.mtime < t) (hx : x.mtime = t) :
    (l ++ [x]).foldl pickLater none = some x := by
  rw [List.foldl_append]
  rcases foldl_pickLater_bounded l none hl (Or.inl rfl) with h | ⟨bb, hb, hlt⟩
  · rw [h]; rfl
  · rw [hb]
    show pickLater (some bb) x = some x
    rw [pickLater, if_pos (by rw [hx]; omega)]

/-- C4: saving one of the four important files writes a backup of the
very data just saved, and restoring that file from its latest backup
succeeds and rewrites the file with exactly that data. -/
theorem save_then_restore_roundtrip (fs : FileSys) (f : DataFile)
    (data : Json) (himp : f.important = true)
    (hclk : ∀ b ∈ fs.backups, b.mtime < fs.clock) :
    (∃ b ∈ (save_json fs f data).backups, b.file = f ∧ b.data = data) ∧
    (_restore_from_latest_backup (save_json fs f data) f).1 = true ∧
    fsGet (_restore_from_latest_backup (save_json fs f data) f).2.files f =
      some data := by
  have hsave : save_json fs f data =
      { files := fsSet fs.files f data
        backups := fs.backups ++ [⟨f, fs.clock, data⟩]
        clock := fs.clock + 1 } := by
    rw [save_json, if_pos himp]
  have hlatest : _latest_backup_for (save_json fs f data) f =
      some ⟨f, fs.clock, data⟩ := by
    rw [hsave, _latest_backup_for]
    show ((fs.backups ++ [(⟨f, fs.clock, data⟩ : Backup)]).filter
      (fun b => b.file == f)).foldl pickLater none = _
    rw [List.filter_append]
    have hkeep : ([(⟨f, fs.clock, data⟩ : Backup)].filter
        (fun b => b.file == f)) = [⟨f, fs.clock, data⟩] := by
      simp [List.filter]
    rw [hkeep]
    exact foldl_pickLater_append_last
      (fun b hb => hclk b (List.mem_filter.mp hb).1) rfl
  refine ⟨⟨⟨f, fs.clock, data⟩, ?_, rfl, rfl⟩, ?_, ?_⟩
  · rw [hsave]
    exact List.mem_append_right _ (List.mem_singleton.mpr rfl)
  · rw [_restore_from_latest_backup, hlatest]
  · rw [_restore_from_latest_backup, hlatest]
    exact fsGet_fsSet_self _ _ _

/-- C4 witness: saving the users file on a one-backup file system and
restoring it. -/
theorem save_then_restore_roundtrip_witness :
    (DataFile.users.important = true ∧
     ∀ b ∈ (({ files := [], backups := [Backup.mk DataFile.users 0 (Json.obj [])], clock := 1 } : FileSys)).backups,
       b.mtime < (({ files := [], backups := [Backup.mk DataFile.users 0 (Json.obj [])], clock := 1 } : FileSys)).clock) ∧
    ((∃ b ∈ (save_json (({ files := [], backups := [Backup.mk DataFile.users 0 (Json.obj [])], clock := 1 } : FileSys))
          DataFile.users (Json.obj [("alice", Json.obj [])])).backups,
        b.file = DataFile.users ∧
        b.data = Json.obj [("alice", Json.obj [])]) ∧
     (_restore_from_latest_backup
        (save_json (({ files := [], backups := [Backup.mk DataFile.users 0 (Json.obj [])], clock := 1 } : FileSys))
          DataFile.users (Json.obj [("alice", Json.obj [])]))
        DataFile.users).1 = true ∧
     fsGet (_restore_from_latest_backup
        (save_json (({ files := [], backups := [Backup.mk DataFile.users 0 (Json.obj [])], clock := 1 } : FileSys))
          DataFile.users (Json.obj [("alice", Json.obj [])]))
        DataFile.users).2.files DataFile.users =
       some (Json.obj [("alice", Json.obj [])])) :=
  ⟨⟨rfl, by intro b hb; simp at hb; rw [hb]; decide⟩,
   save_then_restore_roundtrip _ _ _ rfl
     (by intro b hb; simp at hb; rw [hb]; decide)⟩

end VoicePlatform

namespace VoicePlatform

open Json

/-!  ## C10: `add_reaction`  -/

/-- The only JSON value equal (in Python) to the string `u` is `str u`. -/
theorem isStrEq_eq {x : Json} {u : String} (h : x.isStrEq u = true) :
    x = Json.str u := by
  cases x <;> simp [isStrEq] at h
  rw [h]

/-- The user just appended is a member. -/
theorem strMem_append_self (xs : List Json) (u : String) :
    strMem (xs ++ [Json.str u]) u = true := by
  simp [strMem, List.any_append, isStrEq]

/-- Removing the first occurrence right after appending it to a list the
user was not in recovers the list exactly. -/
theorem eraseStrFirst_append_not_mem {xs : List Json} {u : String}
    (h : strMem xs u = false) :
    eraseStrFirst (xs ++ [Json.str u]) u = xs := by
  induction xs with
  | nil => simp [eraseStrFirst, isStrEq]
  | cons x rest ih =>
      rw [strMem, List.any_cons, Bool.or_eq_false_iff] at h
      obtain ⟨h1, h2⟩ := h
      rw [List.cons_append, eraseStrFirst, h1]
      simp only [Bool.false_eq_true, if_false]
      rw [ih h2]

/-- With at most one occurrence, erasing the user removes them. -/
theorem strMem_erase_self {xs : List Json} {u : String}
    (hcnt : xs.countP (fun x => x.isStrEq u) ≤ 1)
    (hmem : strMem xs u = true) :
    strMem (eraseStrFirst xs u) u = false := by
  induction xs with
  | nil => simp [strMem] at hmem
  | cons x rest ih =>
      by_cases hx : x.isStrEq u = true
      · rw [eraseStrFirst, hx]
        simp only [if_true]
        rw [List.countP_cons, hx] at hcnt
        have h1 : rest.countP (fun x => x.isStrEq u) + 1 ≤ 1 := by
          simpa using hcnt
        have h0 : rest.countP (fun x => x.isStrEq u) = 0 := by omega
        rw [strMem, List.any_eq_false]
        intro a ha
        simpa using List.countP_eq_zero.mp h0 a ha
      · have hx' : x.isStrEq u = false := by simpa using hx
        rw [eraseStrFirst, hx']
        simp only [Bool.false_eq_true, if_false]
        rw [strMem, List.any_cons, hx', Bool.false_or]
        have hmem' : strMem rest u = true := by
          rw [strMem, List.any_cons, hx', Bool.false_or] at hmem
          exact hmem
        have hcnt' : rest.countP (fun x => x.isStrEq u) ≤ 1 := by
          rw [List.countP_cons, hx'] at hcnt
          have h1 : rest.countP (fun x => x.isStrEq u) + 0 ≤ 1 := by
            simpa using hcnt
          omega
        exact ih hcnt' hmem'

/-- Erasing the user and appending them again permutes the list. -/
theorem erase_append_perm {xs : List Json} {u : String}
    (hmem : strMem xs u = true) :
    (eraseStrFirst xs u ++ [Json.str u]).Perm xs := by
  induction xs with
  | nil => simp [strMem] at hmem
  | cons x rest ih =>
      by_cases hx : x.isStrEq u = true
      · rw [eraseStrFirst, hx]
        simp only [if_true]
        rw [isStrEq_eq hx]
        exact List.perm_append_singleton _ _
      · have hx' : x.isStrEq u = false := by simpa using hx
        rw [eraseStrFirst, hx']
        simp only [Bool.false_eq_true, if_false]
        have hmem' : strMem rest u = true := by
          rw [strMem, List.any_cons, hx', Bool.false_or] at hmem
          exact hmem
        rw [List.cons_append]
        exact (ih hmem').cons x

/-- With at most one occurrence, one toggle flips membership. -/
theorem strMem_toggle {xs : List Json} {u : String}
    (hcnt : xs.countP (fun x => x.isStrEq u) ≤ 1) :
    strMem (toggleList xs u) u = !(strMem xs u) := by
  by_cases h : strMem xs u = true
  · rw [toggleList, h]
    simp only [if_true, h, Bool.not_true]
    exact strMem_erase_self hcnt h
  · have hf : strMem xs u = false := by simpa using h
    rw [toggleList, hf]
    simp only [Bool.false_eq_true, if_false, Bool.not_false]
    exact strMem_append_self xs u

/-- With at most one occurrence, toggling twice permutes the list back. -/
theorem toggle_toggle_perm {xs : List Json} {u : String}
    (hcnt : xs.countP (fun x => x.isStrEq u) ≤ 1) :
    (toggleList (toggleList xs u) u).Perm xs := by
  by_cases h : strMem xs u = true
  · have h1 : toggleList xs u = eraseStrFirst xs u := by
      rw [toggleList, h]
      simp only [if_true]
    have h2 : strMem (eraseStrFirst xs u) u = false :=
      strMem_erase_self hcnt h
    rw [h1, toggleList, h2]
    simp only [Bool.false_eq_true, if_false]
    exact erase_append_perm h
  · have hf : strMem xs u = false := by simpa using h
    have h1 : toggleList xs u = xs ++ [Json.str u] := by
      rw [toggleList, hf]
      simp only [Bool.false_eq_true, if_false]
    rw [h1, toggleList, strMem_append_self]
    simp only [if_true]
    rw [eraseStrFirst_append_not_mem hf]

end VoicePlatform

namespace VoicePlatform

open Json

/-- A record's match status is its id's comparison. -/
theorem msgMatches_obj {kvs : List (String × Json)} {v : Json} {mid : String}
    (hid : alookup kvs "id" = some v) :
    msgMatches mid (Json.obj kvs) = v.isStrEq mid := by
  rw [msgMatches, hid]

/-- Ensuring the default reaction key never disturbs a key that is
present. -/
theorem alookup_ensureThumb {rkvs : List (String × Json)} {emoji : String}
    {w : Json} (h : alookup rkvs emoji = some w) :
    alookup (ensureThumb rkvs) emoji = some w := by
  rw [ensureThumb]
  by_cases ht : (alookup rkvs thumbKey).isSome = true
  · rw [if_pos ht]
    exact h
  · rw [if_neg ht]
    have hne : emoji ≠ thumbKey := by
      intro he
      subst he
      rw [h] at ht
      simp at ht
    rw [alookup_oset_ne _ _ hne]
    exact h

/-- The matched-record step, evaluated on a record whose reactions dict
holds a list under the emoji. -/
theorem reactOnMatch_eq {kvs rkvs : List (String × Json)} {xs : List Json}
    {uid emoji : String}
    (hr : alookup kvs "reactions" = some (Json.obj rkvs))
    (hx : alookup rkvs emoji = some (Json.arr xs)) :
    reactOnMatch kvs uid emoji =
      some (oset kvs "reactions" (Json.obj (oset (ensureThumb rkvs) emoji
        (Json.arr (toggleList xs uid))))) := by
  have h1 : ensureReactions kvs = kvs := by simp [ensureReactions, hr]
  rw [reactOnMatch, h1, hr]
  show (match alookup (ensureThumb rkvs) emoji with
        | some (Json.arr ys) =>
            some (oset kvs "reactions" (Json.obj (oset (ensureThumb rkvs)
              emoji (Json.arr (toggleList ys uid)))))
        | _ => none) = _
  rw [alookup_ensureThumb hx]

/-- `add_reaction` on a store whose head record matches. -/
theorem add_reaction_cons_match {kvs kvs' : List (String × Json)}
    {rest : List Json} {mid uid emoji : String} {v : Json}
    (hid : alookup kvs "id" = some v) (hv : v.isStrEq mid = true)
    (hm : reactOnMatch kvs uid emoji = some kvs') :
    add_reaction (Json.obj kvs :: rest) mid uid emoji =
      some (true, Json.obj kvs' :: rest) := by
  rw [add_reaction, hid]
  simp only [hv, if_true]
  rw [hm]

/-- `add_reaction` on a store whose head record does not match. -/
theorem add_reaction_cons_nomatch {kvs : List (String × Json)}
    {rest : List Json} {mid uid emoji : String} {v : Json}
    (hid : alookup kvs "id" = some v) (hv : v.isStrEq mid = false) :
    add_reaction (Json.obj kvs :: rest) mid uid emoji =
      (match add_reaction rest mid uid emoji with
       | none => none
       | some (b, rest') => some (b, Json.obj kvs :: rest')) := by
  rw [add_reaction, hid]
  simp only [hv, Bool.false_eq_true, if_false]

/-- The observed reaction list when the head record matches. -/
theorem reactionList_cons_match {kvs rkvs : List (String × Json)}
    {rest xs : List Json} {mid emoji : String} {v : Json}
    (hid : alookup kvs "id" = some v) (hv : v.isStrEq mid = true)
    (hr : alookup kvs "reactions" = some (Json.obj rkvs))
    (hx : alookup rkvs emoji = some (Json.arr xs)) :
    reactionList (Json.obj kvs :: rest) mid emoji = some xs := by
  rw [reactionList,
    List.find?_cons_of_pos _ (by rw [msgMatches_obj hid]; exact hv)]
  show (match alookup kvs "reactions" with
        | some (Json.obj rkvs) =>
            match alookup rkvs emoji with
            | some (Json.arr xs) => some xs
            | _ => none
        | _ => none) = some xs
  rw [hr]
  show (match alookup rkvs emoji with
        | some (Json.arr xs) => some xs
        | _ => none) = some xs
  rw [hx]

/-- The observed reaction list skips a non-matching head record. -/
theorem reactionList_cons_nomatch {m : Json} {rest : List Json}
    {mid emoji : String} (h : msgMatches mid m = false) :
    reactionList (m :: rest) mid emoji = reactionList rest mid emoji := by
  rw [reactionList, List.find?_cons_of_neg _ (by simp [h])]
  rfl

end VoicePlatform

namespace VoicePlatform

open Json

/-- C10 (amended): on a store of id-bearing records with at most one
match, `add_reaction` toggles membership — after one call the user is in
the matched record's reaction list under the emoji iff they were not
before — and two consecutive identical calls leave that reaction list a
permutation of the original (same members; the user's position may move
to the end); with no matching id it returns `False` and leaves the store
unchanged. -/
theorem add_reaction_spec (msgs : List Json) (mid uid emoji : String)
    (hwf : msgs.all msgHasId = true)
    (huniq : msgs.countP (msgMatches mid) ≤ 1) :
    (msgs.any (msgMatches mid) = false →
       add_reaction msgs mid uid emoji = some (false, msgs)) ∧
    (∀ xs, reactionList msgs mid emoji = some xs →
       xs.countP (fun x => x.isStrEq uid) ≤ 1 →
       ∃ msgs1 msgs2 zs,
         add_reaction msgs mid uid emoji = some (true, msgs1) ∧
         reactionList msgs1 mid emoji = some (toggleList xs uid) ∧
         strMem (toggleList xs uid) uid = !(strMem xs uid) ∧
         add_reaction msgs1 mid uid emoji = some (true, msgs2) ∧
         reactionList msgs2 mid emoji = some zs ∧
         zs.Perm xs) := by
  induction msgs with
  | nil =>
      refine ⟨fun _ => rfl, ?_⟩
      intro xs hxs
      rw [reactionList] at hxs
      simp [List.find?] at hxs
  | cons m rest ih =>
      rw [List.all_cons, Bool.and_eq_true] at hwf
      obtain ⟨hm, hrest⟩ := hwf
      match m with
      | .obj kvs =>
          rw [msgHasId, Option.isSome_iff_exists] at hm
          obtain ⟨v, hid⟩ := hm
          by_cases hv : v.isStrEq mid = true
          · constructor
            · intro hany
              rw [List.any_cons, msgMatches_obj hid, hv] at hany
              simp at hany
            · intro xs hxs hcnt
              have hfind : (Json.obj kvs :: rest).find? (msgMatches mid) =
                  some (Json.obj kvs) :=
                List.find?_cons_of_pos _ (by rw [msgMatches_obj hid]; exact hv)
              rw [reactionList, hfind] at hxs
              have hxs' : (match alookup kvs "reactions" with
                  | some (Json.obj rkvs) =>
                      match alookup rkvs emoji with
                      | some (Json.arr ys) => some ys
                      | _ => none
                  | _ => none) = some xs := hxs
              match hr : alookup kvs "reactions" with
              | none => rw [hr] at hxs'; cases hxs'
              | some (Json.null) => rw [hr] at hxs'; cases hxs'
              | some (Json.bool _) => rw [hr] at hxs'; cases hxs'
              | some (Json.num _) => rw [hr] at hxs'; cases hxs'
              | some (Json.str _) => rw [hr] at hxs'; cases hxs'
              | some (Json.arr _) => rw [hr] at hxs'; cases hxs'
              | some (Json.obj rkvs) =>
                  rw [hr] at hxs'
                  have hxs2 : (match alookup rkvs emoji with
                      | some (Json.arr ys) => some ys
                      | _ => none) = some xs := hxs'
                  match hx : alookup rkvs emoji with
                  | none => rw [hx] at hxs2; cases hxs2
                  | some (Json.null) => rw [hx] at hxs2; cases hxs2
                  | some (Json.bool _) => rw [hx] at hxs2; cases hxs2
                  | some (Json.num _) => rw [hx] at hxs2; cases hxs2
                  | some (Json.str _) => rw [hx] at hxs2; cases hxs2
                  | some (Json.obj _) => rw [hx] at hxs2; cases hxs2
                  | some (Json.arr ys) =>
                      rw [hx] at hxs2
                      have hyx : xs = ys := by
                        simpa using hxs2.symm
                      subst hyx
                      have hrom := @reactOnMatch_eq kvs rkvs xs uid emoji hr hx
                      have add1 := @add_reaction_cons_match kvs _ rest
                        mid uid emoji v hid hv hrom
                      have hid1 : alookup (oset kvs "reactions"
                          (Json.obj (oset (ensureThumb rkvs) emoji
                            (Json.arr (toggleList xs uid))))) "id" = some v := by
                        rw [alookup_oset_ne _ _ (by decide)]
                        exact hid
                      have hr1 := alookup_oset_self kvs "reactions"
                        (Json.obj (oset (ensureThumb rkvs) emoji
                          (Json.arr (toggleList xs uid))))
                      have hx1 := alookup_oset_self (ensureThumb rkvs) emoji
                        (Json.arr (toggleList xs uid))
                      have rl1 := @reactionList_cons_match _ _ rest _
                        mid emoji v hid1 hv hr1 hx1
                      have hrom2 := @reactOnMatch_eq _ _ _ uid emoji hr1 hx1
                      have add2 := @add_reaction_cons_match _ _ rest
                        mid uid emoji v hid1 hv hrom2
                      have hid2 : alookup (oset (oset kvs "reactions"
                          (Json.obj (oset (ensureThumb rkvs) emoji
                            (Json.arr (toggleList xs uid))))) "reactions"
                          (Json.obj (oset (ensureThumb (oset (ensureThumb rkvs)
                            emoji (Json.arr (toggleList xs uid)))) emoji
                            (Json.arr (toggleList (toggleList xs uid) uid)))))
                          "id" = some v := by
                        rw [alookup_oset_ne _ _ (by decide)]
                        exact hid1
                      have hr2 := alookup_oset_self (oset kvs "reactions"
                          (Json.obj (oset (ensureThumb rkvs) emoji
                            (Json.arr (toggleList xs uid))))) "reactions"
                          (Json.obj (oset (ensureThumb (oset (ensureThumb rkvs)
                            emoji (Json.arr (toggleList xs uid)))) emoji
                            (Json.arr (toggleList (toggleList xs uid) uid))))
                      have hx2 := alookup_oset_self
                        (ensureThumb (oset (ensureThumb rkvs) emoji
                          (Json.arr (toggleList xs uid)))) emoji
                        (Json.arr (toggleList (toggleList xs uid) uid))
                      have rl2 := @reactionList_cons_match _ _ rest _
                        mid emoji v hid2 hv hr2 hx2
                      exact ⟨_, _, toggleList (toggleList xs uid) uid,
                        add1, rl1, strMem_toggle hcnt, add2, rl2,
                        toggle_toggle_perm hcnt⟩
          · have hvf : v.isStrEq mid = false := by simpa using hv
            have hmmf : msgMatches mid (Json.obj kvs) = false := by
              rw [msgMatches_obj hid]
              exact hvf
            have huniq' : rest.countP (msgMatches mid) ≤ 1 := by
              rw [List.countP_cons, hmmf] at huniq
              have h2 : rest.countP (msgMatches mid) + 0 ≤ 1 := by
                simpa using huniq
              omega
            have ihh := ih hrest huniq'
            constructor
            · intro hany
              rw [List.any_cons, hmmf, Bool.false_or] at hany
              rw [add_reaction_cons_nomatch hid hvf, ihh.1 hany]
            · intro xs hxs hcnt
              rw [reactionList_cons_nomatch hmmf] at hxs
              obtain ⟨m1, m2, zs, a1, r1, s1, a2, r2, pz⟩ :=
                ihh.2 xs hxs hcnt
              refine ⟨Json.obj kvs :: m1, Json.obj kvs :: m2, zs,
                ?_, ?_, s1, ?_, ?_, pz⟩
              · rw [add_reaction_cons_nomatch hid hvf, a1]
              · rw [reactionList_cons_nomatch hmmf]
                exact r1
              · rw [add_reaction_cons_nomatch hid hvf, a2]
              · rw [reactionList_cons_nomatch hmmf]
                exact r2
      | .null | .bool _ | .num _ | .str _ | .arr _ =>
          simp [msgHasId] at hm

end VoicePlatform

namespace VoicePlatform

open Json

/-- C10 counterexample: two identical `add_reaction` calls do NOT leave
the reaction list equal to its original value.  Starting from the list
`["u", "v"]`, toggling user `"u"` twice yields `["v", "u"]`: the member
set is preserved but the list differs, because the removal takes the
first occurrence and the re-addition appends at the end. -/
theorem add_reaction_double_call_counterexample :
    add_reaction
      [Json.obj [("id", Json.str "m1"),
        ("reactions", Json.obj [(thumbKey,
          Json.arr [Json.str "u", Json.str "v"])])]] "m1" "u" thumbKey =
      some (true, [Json.obj [("id", Json.str "m1"),
        ("reactions", Json.obj [(thumbKey, Json.arr [Json.str "v"])])]]) ∧
    add_reaction
      [Json.obj [("id", Json.str "m1"),
        ("reactions", Json.obj [(thumbKey, Json.arr [Json.str "v"])])]]
      "m1" "u" thumbKey =
      some (true, [Json.obj [("id", Json.str "m1"),
        ("reactions", Json.obj [(thumbKey,
          Json.arr [Json.str "v", Json.str "u"])])]]) ∧
    reactionList
      [Json.obj [("id", Json.str "m1"),
        ("reactions", Json.obj [(thumbKey,
          Json.arr [Json.str "u", Json.str "v"])])]] "m1" thumbKey =
      some [Json.str "u", Json.str "v"] ∧
    reactionList
      [Json.obj [("id", Json.str "m1"),
        ("reactions", Json.obj [(thumbKey,
          Json.arr [Json.str "v", Json.str "u"])])]] "m1" thumbKey =
      some [Json.str "v", Json.str "u"] ∧
    ([Json.str "v", Json.str "u"] : List Json) ≠
      [Json.str "u", Json.str "v"] :=
  ⟨rfl, rfl, rfl, rfl, by simp⟩

/-- C10 witness: the amended theorem applied to the counterexample's
store — membership toggles, and the double call returns a permutation. -/
theorem add_reaction_spec_witness :
    ([Json.obj [("id", Json.str "m1"),
        ("reactions", Json.obj [(thumbKey,
          Json.arr [Json.str "u", Json.str "v"])])]].all msgHasId = true ∧
     [Json.obj [("id", Json.str "m1"),
        ("reactions", Json.obj [(thumbKey,
          Json.arr [Json.str "u", Json.str "v"])])]].countP
        (msgMatches "m1") ≤ 1 ∧
     reactionList
       [Json.obj [("id", Json.str "m1"),
         ("reactions", Json.obj [(thumbKey,
           Json.arr [Json.str "u", Json.str "v"])])]] "m1" thumbKey =
       some [Json.str "u", Json.str "v"] ∧
     ([Json.str "u", Json.str "v"] : List Json).countP
        (fun x => x.isStrEq "u") ≤ 1) ∧
    (∃ msgs1 msgs2 zs,
      add_reaction
        [Json.obj [("id", Json.str "m1"),
          ("reactions", Json.obj [(thumbKey,
            Json.arr [Json.str "u", Json.str "v"])])]] "m1" "u" thumbKey =
        some (true, msgs1) ∧
      reactionList msgs1 "m1" thumbKey =
        some (toggleList [Json.str "u", Json.str "v"] "u") ∧
      strMem (toggleList [Json.str "u", Json.str "v"] "u") "u" =
        !(strMem [Json.str "u", Json.str "v"] "u") ∧
      add_reaction msgs1 "m1" "u" thumbKey = some (true, msgs2) ∧
      reactionList msgs2 "m1" thumbKey = some zs ∧
      zs.Perm [Json.str "u", Json.str "v"]) :=
  ⟨⟨rfl, by decide, rfl, by decide⟩,
   (add_reaction_spec
      [Json.obj [("id", Json.str "m1"),
        ("reactions", Json.obj [(thumbKey,
          Json.arr [Json.str "u", Json.str "v"])])]] "m1" "u" thumbKey
      rfl (by decide)).2
     [Json.str "u", Json.str "v"] rfl (by decide)⟩

end VoicePlatform
